import Mathlib

/-!
Verification of the recruitment pipeline in `main.py`.

The Python program is embedded shallowly:
* floats are modelled by `ℚ` (all arithmetic in the program is exact
  rational arithmetic on small numbers);
* Python dicts that serve as records become structures; optional keys
  (`job.get(...)`, `candidate_data.get(...)`) become `Option` fields,
  and an unguarded `d[k]` lookup on an optional key becomes a `match`
  that fails (models `KeyError`) when the key is absent;
* the mutable `session_state` dict becomes an association list threaded
  through the stage functions, with Python-dict update semantics
  (an existing key keeps its position, a new key is appended);
* `list.sort(key=..., reverse=True)` (a stable descending sort) is
  modelled by `List.insertionSort` with the reversed order, which is
  stable in the same sense.
-/

namespace Recruitment

/-- Dataclass `CandidateProfile` from `main.py`. -/
structure CandidateProfile where
  name : String
  email : String
  resume_text : String
  skills : List String
  experience_years : ℚ
deriving DecidableEq

/-- A job record from the `jobs_db` list. The keys `id`, `title`,
`company` are always read unguardedly; `required_skills` and
`years_experience_required` are read with `.get` defaults in
`_calculate_job_fit` but `required_skills` is read unguardedly in
`match_jobs`, hence they are optional here. -/
structure Job where
  id : String
  title : String
  company : String
  required_skills : Option (List String)
  years_experience_required : Option ℚ
deriving DecidableEq

/-- The dict returned by `screen_candidate` (without the timestamp,
which no claim concerns). -/
structure ScreeningResult where
  match_score : ℚ
  resume_skills : List String
  required_skills : List String
  recommendation : String
deriving DecidableEq

/-- An entry of the `matches` list built in `match_jobs`. -/
structure JobMatch where
  job_id : String
  title : String
  company : String
  match_score : ℚ
  key_matches : List String
deriving DecidableEq

/-- The dict returned by `match_jobs` (without the timestamp). -/
structure MatchingResult where
  candidate_id : String
  total_matches_found : ℕ
  top_matches : List JobMatch
deriving DecidableEq

/-- One question dict from `generate_interview`. -/
structure Question where
  id : ℕ
  category : String
  question : String
deriving DecidableEq

/-- The dict returned by `generate_interview` (without the timestamp). -/
structure InterviewResult where
  role : String
  total_questions : ℕ
  questions : List Question
  difficulty_level : String
deriving DecidableEq

/-- A value stored in `session_state`: each stage stores its own result
type under its own key. -/
inductive MemVal where
  | screening (r : ScreeningResult)
  | matching (r : MatchingResult)
  | interview (r : InterviewResult)
deriving DecidableEq

/-- The `session_state` dict, as an association list in insertion order. -/
abbrev Mem := List (String × MemVal)

/-- Python dict assignment `d[key] = v`: an existing key keeps its
position and gets the new value, a new key is appended at the end.
This is `_save_to_memory` from `main.py`. -/
def save_to_memory (st : Mem) (key : String) (v : MemVal) : Mem :=
  match st with
  | [] => [(key, v)]
  | (k, w) :: rest =>
    if k = key then (k, v) :: rest else (k, w) :: save_to_memory rest key v

/-- The caller-supplied `candidate_data` dict of `full_workflow`:
`name`, `email`, `resume` are read unguardedly, `skills` and
`experience_years` with `.get` defaults. -/
structure CandidateData where
  name : String
  email : String
  resume : String
  skills : Option (List String)
  experience_years : Option ℚ
deriving DecidableEq

/-- The interview slot of the final workflow result: either a real
interview plan or the sentinel dict `{"status": "NO_MATCHES"}`. -/
inductive InterviewOutcome where
  | plan (r : InterviewResult)
  | noMatches
deriving DecidableEq

/-- The combined result dict built at the end of `full_workflow`
(without the timestamp). -/
structure WorkflowResult where
  candidate_name : String
  overall_status : String
  screening : ScreeningResult
  matching : MatchingResult
  interview : InterviewOutcome
deriving DecidableEq

/-- The two possible returns of `full_workflow`: the early
`{"status": "REJECTED", "stage": "screening", "result": ...}` dict, or
the combined result dict. -/
inductive WorkflowOutput where
  | rejected (status : String) (stage : String) (result : ScreeningResult)
  | completed (r : WorkflowResult)
deriving DecidableEq

/-- Lowercased code points of a string; models Python `s.lower()` on
the ASCII texts this program works with. -/
def lowerChars (s : String) : List Char :=
  s.data.map Char.toLower

/-- Substring occurrence test on code-point lists; models Python
`needle in hay` for strings. -/
def subOccurs (needle : List Char) : List Char → Bool
  | [] => needle.isEmpty
  | c :: t => needle.isPrefixOf (c :: t) || subOccurs needle t

/-- Python `keyword.lower() in text.lower()`. -/
def containsLower (text keyword : String) : Bool :=
  subOccurs (lowerChars keyword) (lowerChars text)

/-- The fixed skill vocabulary used by both extractors in `main.py`. -/
def keywords : List String :=
  ["Python", "Java", "Machine Learning", "Data Analysis", "Cloud", "SQL", "API", "Docker"]

/-- Method `_extract_skills`: keep each vocabulary keyword, in
vocabulary order, whose lowercasing occurs in the lowercased text. -/
def extract_skills (resume_text : String) : List String :=
  keywords.filter (fun kw => containsLower resume_text kw)

/-- Method `_extract_job_requirements`: identical loop over the same
vocabulary. -/
def extract_job_requirements (job_description : String) : List String :=
  keywords.filter (fun kw => containsLower job_description kw)

/-- Method `_calculate_match_score`: 0 on an empty required list,
otherwise `len(set(candidate) & set(required)) / len(required) * 100`.
Note the denominator is the length of the required-skills **list**. -/
def calculate_match_score (candidate_skills required_skills : List String) : ℚ :=
  if required_skills = [] then 0
  else ((candidate_skills.toFinset ∩ required_skills.toFinset).card : ℚ)
        / (required_skills.length : ℚ) * 100

/-- The recommendation expression inside `screen_candidate`:
`"PASS" if score >= 70 else "REVIEW" if score >= 50 else "REJECT"`. -/
def recommendationOf (match_score : ℚ) : String :=
  if 70 ≤ match_score then "PASS"
  else if 50 ≤ match_score then "REVIEW"
  else "REJECT"

/-- Method `screen_candidate`: extracts both skill lists, scores,
classifies, saves the result dict under `"screening_result"` and
returns it. -/
def screen_candidate (st : Mem) (resume_text job_description : String) :
    ScreeningResult × Mem :=
  let resume_skills := extract_skills resume_text
  let job_skills := extract_job_requirements job_description
  let match_score := calculate_match_score resume_skills job_skills
  let r : ScreeningResult :=
    { match_score := match_score
      resume_skills := resume_skills
      required_skills := job_skills
      recommendation := recommendationOf match_score }
  (r, save_to_memory st "screening_result" (MemVal.screening r))

/-- The skill-overlap ratio inside `_calculate_job_fit`:
`len(set(c.skills) & set(job.get("required_skills", []))) / max(1, len(job.get("required_skills", [])))`. -/
def skillRatioOf (candidate : CandidateProfile) (job : Job) : ℚ :=
  ((candidate.skills.toFinset ∩ (job.required_skills.getD []).toFinset).card : ℚ)
    / ((max 1 (job.required_skills.getD []).length : ℕ) : ℚ)

/-- The experience ratio inside `_calculate_job_fit`:
`min(1.0, c.experience_years / max(1, job.get("years_experience_required", 1)))`. -/
def expRatioOf (candidate : CandidateProfile) (job : Job) : ℚ :=
  min 1 (candidate.experience_years / max 1 (job.years_experience_required.getD 1))

/-- Method `_calculate_job_fit`: `skill_match * 60 + exp_match * 40`. -/
def calculate_job_fit (candidate : CandidateProfile) (job : Job) : ℚ :=
  skillRatioOf candidate job * 60 + expRatioOf candidate job * 40

/-- Method `_find_skill_matches`, `list(set(a) & set(b))`: Python
iterates a hash set in unspecified order; we fix the representative
order as the distinct common elements in `dedup` order. No claim
depends on this order. -/
def find_skill_matches (candidate_skills job_skills : List String) : List String :=
  candidate_skills.dedup.filter (fun s => job_skills.contains s)

/-- The descending order used by `matches.sort(key=lambda x: x["match_score"], reverse=True)`. -/
def matchGE (a b : JobMatch) : Prop :=
  b.match_score ≤ a.match_score

instance : DecidableRel matchGE :=
  fun a b => inferInstanceAs (Decidable (b.match_score ≤ a.match_score))

instance : IsTotal JobMatch matchGE :=
  ⟨fun a b => le_total b.match_score a.match_score⟩

instance : IsTrans JobMatch matchGE :=
  ⟨fun _ _ _ h h2 => le_trans h2 h⟩

/-- The match dict appended for one passing job in `match_jobs`. -/
def mkJobMatch (candidate : CandidateProfile) (job : Job) (req : List String) : JobMatch :=
  { job_id := job.id
    title := job.title
    company := job.company
    match_score := calculate_job_fit candidate job
    key_matches := find_skill_matches candidate.skills req }

/-- The loop in `match_jobs` that builds the `matches` list in job-list
order, keeping jobs with fit score strictly above 50. Building a kept
match reads `job["required_skills"]` unguardedly, which raises
`KeyError` (here: `none`) when the key is absent. -/
def matchesOf (candidate : CandidateProfile) : List Job → Option (List JobMatch)
  | [] => some []
  | job :: rest =>
    if 50 < calculate_job_fit candidate job then
      match job.required_skills with
      | none => none
      | some req =>
        (matchesOf candidate rest).map (fun ms => mkJobMatch candidate job req :: ms)
    else matchesOf candidate rest

/-- The matching-result dict of `match_jobs`: sort `matches` stably by
descending score and truncate to the top 3. -/
def matchingResultOf (candidate : CandidateProfile) (ms : List JobMatch) : MatchingResult :=
  { candidate_id := candidate.name
    total_matches_found := ms.length
    top_matches := (ms.insertionSort matchGE).take 3 }

/-- Method `match_jobs`: build `matches`, sort stably by descending
score, truncate to the top 3, save the result dict under
`"matching_result"` and return it. -/
def match_jobs (st : Mem) (candidate : CandidateProfile) (job_database : List Job) :
    Option (MatchingResult × Mem) :=
  (matchesOf candidate job_database).map (fun ms =>
    (matchingResultOf candidate ms,
     save_to_memory st "matching_result" (MemVal.matching (matchingResultOf candidate ms))))

/-- The `candidate_skills[0] if candidate_skills else 'software development'`
expression in `generate_interview`. -/
def firstSkillOf (candidate_skills : List String) : String :=
  match candidate_skills with
  | [] => "software development"
  | s :: _ => s

/-- Method `generate_interview`: the fixed five-question plan,
parameterized by the role title and the candidate's first skill, saved
under `"interview_questions"` and returned. -/
def generate_interview (st : Mem) (role_title : String) (candidate_skills : List String) :
    InterviewResult × Mem :=
  let questions : List Question :=
    [ { id := 1, category := "Technical",
        question := "Describe your experience with " ++ firstSkillOf candidate_skills ++ "?" },
      { id := 2, category := "Technical",
        question := "Walk us through a challenging project you\x27ve worked on." },
      { id := 3, category := "Behavioral",
        question := "How do you handle conflicts in a team environment?" },
      { id := 4, category := "Behavioral",
        question := "Tell us about a time you failed and what you learned." },
      { id := 5, category := "Role-Specific",
        question := "Why are you interested in this " ++ role_title ++ " position?" } ]
  let r : InterviewResult :=
    { role := role_title
      total_questions := questions.length
      questions := questions
      difficulty_level := "MEDIUM" }
  (r, save_to_memory st "interview_questions" (MemVal.interview r))

/-- The `CandidateProfile(...)` construction inside `full_workflow`,
with the `.get` defaults for the optional keys. -/
def profileOf (candidate_data : CandidateData) : CandidateProfile :=
  { name := candidate_data.name
    email := candidate_data.email
    resume_text := candidate_data.resume
    skills := candidate_data.skills.getD []
    experience_years := candidate_data.experience_years.getD 0 }

/-- The combined result dict built at the end of `full_workflow`. -/
def completedResultOf (candidate_data : CandidateData) (screening : ScreeningResult)
    (matching : MatchingResult) (interview : InterviewOutcome) : WorkflowResult :=
  { candidate_name := candidate_data.name
    overall_status := "COMPLETED"
    screening := screening
    matching := matching
    interview := interview }

/-- Method `full_workflow`: screen, halt on REJECT, otherwise build the
`CandidateProfile`, match jobs, generate the interview (or the
`NO_MATCHES` sentinel when there are no matches) and combine. -/
def full_workflow (st : Mem) (candidate_data : CandidateData)
    (job_description : String) (jobs_db : List Job) :
    Option (WorkflowOutput × Mem) :=
  let s := screen_candidate st candidate_data.resume job_description
  let screening := s.1
  if screening.recommendation = "REJECT" then
    some (WorkflowOutput.rejected "REJECTED" "screening" screening, s.2)
  else
    let candidate := profileOf candidate_data
    match match_jobs s.2 candidate jobs_db with
    | none => none
    | some (matching, st2) =>
      let iv : InterviewOutcome × Mem :=
        match matching.top_matches with
        | best :: _ =>
          let g := generate_interview st2 best.title candidate.skills
          (InterviewOutcome.plan g.1, g.2)
        | [] => (InterviewOutcome.noMatches, st2)
      some (WorkflowOutput.completed
              (completedResultOf candidate_data screening matching iv.1), iv.2)

/-- The `sample_candidate` dict from `main`. -/
def sample_candidate : CandidateData :=
  { name := "Alice Johnson"
    email := "alice@example.com"
    resume := "Experienced Python developer with 5 years in Machine Learning and Cloud technologies. Proficient in Docker, SQL, and API development. Strong track record building scalable data pipelines."
    skills := some ["Python", "Machine Learning", "Cloud", "Docker", "SQL", "API"]
    experience_years := some 5 }

/-- The `sample_job_description` string from `main`. -/
def sample_job_description : String :=
  "Senior Python Developer with Machine Learning expertise. Experience in Cloud platforms required. Strong SQL and API design skills needed."

/-- The `sample_jobs` list from `main`. -/
def sample_jobs : List Job :=
  [ { id := "job_001", title := "Senior ML Engineer", company := "TechCorp",
      required_skills := some ["Python", "Machine Learning", "Cloud"],
      years_experience_required := some 3 },
    { id := "job_002", title := "Data Engineer", company := "DataFlow Inc",
      required_skills := some ["Python", "SQL", "Docker"],
      years_experience_required := some 2 },
    { id := "job_003", title := "Backend Developer", company := "WebServices Ltd",
      required_skills := some ["Java", "API", "Docker"],
      years_experience_required := some 4 } ]

/-- The `CandidateProfile` that `full_workflow` builds from
`sample_candidate`. -/
def sample_profile : CandidateProfile :=
  profileOf sample_candidate

/-- The screening result that the sample run of `main` produces. -/
def sample_screening_result : ScreeningResult :=
  { match_score := 100
    resume_skills := ["Python", "Machine Learning", "Cloud", "SQL", "API", "Docker"]
    required_skills := ["Python", "Machine Learning", "Cloud", "SQL", "API"]
    recommendation := "PASS" }

/-- The matching result that the sample run of `main` produces. -/
def sample_matching_result : MatchingResult :=
  { candidate_id := "Alice Johnson"
    total_matches_found := 3
    top_matches :=
      [ { job_id := "job_001", title := "Senior ML Engineer", company := "TechCorp",
          match_score := 100, key_matches := ["Python", "Machine Learning", "Cloud"] },
        { job_id := "job_002", title := "Data Engineer", company := "DataFlow Inc",
          match_score := 100, key_matches := ["Python", "Docker", "SQL"] },
        { job_id := "job_003", title := "Backend Developer", company := "WebServices Ltd",
          match_score := 80, key_matches := ["Docker", "API"] } ] }

/-- The memory after running only `match_jobs` on the sample data from
an empty session. -/
def sample_matching_mem : Mem :=
  [("matching_result", MemVal.matching sample_matching_result)]

/-- The interview plan that the sample run of `main` produces. -/
def sample_interview_result : InterviewResult :=
  { role := "Senior ML Engineer"
    total_questions := 5
    questions :=
      [ { id := 1, category := "Technical",
          question := "Describe your experience with Python?" },
        { id := 2, category := "Technical",
          question := "Walk us through a challenging project you\x27ve worked on." },
        { id := 3, category := "Behavioral",
          question := "How do you handle conflicts in a team environment?" },
        { id := 4, category := "Behavioral",
          question := "Tell us about a time you failed and what you learned." },
        { id := 5, category := "Role-Specific",
          question := "Why are you interested in this Senior ML Engineer position?" } ]
    difficulty_level := "MEDIUM" }

/-- The combined workflow result of the sample run of `main`. -/
def sample_workflow_result : WorkflowResult :=
  { candidate_name := "Alice Johnson"
    overall_status := "COMPLETED"
    screening := sample_screening_result
    matching := sample_matching_result
    interview := InterviewOutcome.plan sample_interview_result }

/-- The final session memory of the sample run of `main`. -/
def sample_final_mem : Mem :=
  [ ("screening_result", MemVal.screening sample_screening_result),
    ("matching_result", MemVal.matching sample_matching_result),
    ("interview_questions", MemVal.interview sample_interview_result) ]

/-- The best match of the sample run: head of the sample top-matches. -/
def sample_best_match : JobMatch :=
  { job_id := "job_001", title := "Senior ML Engineer", company := "TechCorp",
    match_score := 100, key_matches := ["Python", "Machine Learning", "Cloud"] }

/-- The remaining sample top-matches after the best one. -/
def sample_rest_matches : List JobMatch :=
  [ { job_id := "job_002", title := "Data Engineer", company := "DataFlow Inc",
      match_score := 100, key_matches := ["Python", "Docker", "SQL"] },
    { job_id := "job_003", title := "Backend Developer", company := "WebServices Ltd",
      match_score := 80, key_matches := ["Docker", "API"] } ]

/-- A candidate whose resume mentions no vocabulary skill, so screening
scores 0 and recommends REJECT. -/
def reject_candidate : CandidateData :=
  { name := "Bob Smith"
    email := "bob@example.com"
    resume := "Seasoned carpenter and woodworker."
    skills := none
    experience_years := none }

theorem subOccurs_eq_true_iff (needle hay : List Char) :
    subOccurs needle hay = true ↔ needle <:+: hay := by
  induction hay with
  | nil => simp [subOccurs, List.isEmpty_iff, List.infix_nil]
  | cons c t ih =>
    simp [subOccurs, Bool.or_eq_true, List.isPrefixOf_iff_prefix, ih,
      List.infix_cons_iff]

/-- C8: for every input text, skill extraction includes a vocabulary tag
in its result if and only if the tag appears as a case-insensitive
substring of the text; both extractors are the same (deterministic)
function, and empty input yields an empty result. -/
theorem C8_extraction_characterization :
    (∀ text kw, kw ∈ extract_skills text ↔
        kw ∈ keywords ∧ lowerChars kw <:+: lowerChars text) ∧
    (∀ text, extract_job_requirements text = extract_skills text) ∧
    extract_skills "" = [] := by
  refine ⟨fun text kw => ?_, fun _ => rfl, by decide⟩
  simp [extract_skills, List.mem_filter, containsLower, subOccurs_eq_true_iff]

/-- C2: the screening match score is always in `[0, 100]`; it is `0` on
an empty required-skills list, and otherwise equals
`|set S ∩ set R| / len R * 100`. -/
theorem C2_match_score_spec (S R : List String) :
    0 ≤ calculate_match_score S R ∧ calculate_match_score S R ≤ 100 ∧
    (R = [] → calculate_match_score S R = 0) ∧
    (R ≠ [] → calculate_match_score S R =
      ((S.toFinset ∩ R.toFinset).card : ℚ) / (R.length : ℚ) * 100) := by
  by_cases hR : R = []
  · subst hR
    simp [calculate_match_score]
  · have hcard : (S.toFinset ∩ R.toFinset).card ≤ R.length :=
      le_trans (Finset.card_le_card Finset.inter_subset_right) (List.toFinset_card_le R)
    have hlen : (0 : ℚ) < (R.length : ℚ) := by
      exact_mod_cast List.length_pos.mpr hR
    have hval : calculate_match_score S R =
        ((S.toFinset ∩ R.toFinset).card : ℚ) / (R.length : ℚ) * 100 := by
      simp [calculate_match_score, hR]
    refine ⟨?_, ?_, fun h => absurd h hR, fun _ => hval⟩
    · rw [hval]
      positivity
    · rw [hval]
      have h1 : ((S.toFinset ∩ R.toFinset).card : ℚ) / (R.length : ℚ) ≤ 1 :=
        (div_le_one hlen).mpr (by exact_mod_cast hcard)
      calc ((S.toFinset ∩ R.toFinset).card : ℚ) / (R.length : ℚ) * 100
          ≤ 1 * 100 := mul_le_mul_of_nonneg_right h1 (by norm_num)
        _ = 100 := one_mul 100

theorem C2_match_score_spec_witness :
    calculate_match_score ["Python"] [] = 0 ∧
    calculate_match_score ["Python"] ["Python", "Java"] =
      (((["Python"] : List String).toFinset ∩
          (["Python", "Java"] : List String).toFinset).card : ℚ)
        / (((["Python", "Java"] : List String).length : ℕ) : ℚ) * 100 :=
  ⟨(C2_match_score_spec ["Python"] []).2.2.1 rfl,
   (C2_match_score_spec ["Python"] ["Python", "Java"]).2.2.2 (by simp)⟩

/-- C3: the screening recommendation is a pure step function of the
match score: `PASS` exactly when the score is at least 70, `REVIEW`
exactly when it is in `[50, 70)`, and `REJECT` exactly when it is
below 50. -/
theorem C3_recommendation_thresholds (s : ℚ) :
    (recommendationOf s = "PASS" ↔ 70 ≤ s) ∧
    (recommendationOf s = "REVIEW" ↔ 50 ≤ s ∧ s < 70) ∧
    (recommendationOf s = "REJECT" ↔ s < 50) := by
  unfold recommendationOf
  split_ifs with h1 h2
  · exact ⟨⟨fun _ => h1, fun _ => rfl⟩,
      ⟨fun h => absurd h (by decide), fun h => absurd h1 (not_le.mpr h.2)⟩,
      ⟨fun h => absurd h (by decide),
       fun h => absurd h1 (not_le.mpr (lt_of_lt_of_le h (by norm_num)))⟩⟩
  · exact ⟨⟨fun h => absurd h (by decide), fun h => absurd h h1⟩,
      ⟨fun _ => ⟨h2, not_le.mp h1⟩, fun _ => rfl⟩,
      ⟨fun h => absurd h (by decide), fun h => absurd h2 (not_le.mpr h)⟩⟩
  · exact ⟨⟨fun h => absurd h (by decide), fun h => absurd h h1⟩,
      ⟨fun h => absurd h (by decide), fun h => absurd h.1 h2⟩,
      ⟨fun _ => not_le.mp h2, fun _ => rfl⟩⟩

/-- C4: for every candidate with non-negative experience (the data
model makes `experience_years` a non-negative number) and every job
record, the job-fit score is in `[0, 100]`, equals the weighted sum of
the floored-denominator skill ratio and the capped experience ratio,
and is `0` for a candidate with no matching skills and zero
experience. -/
theorem C4_job_fit_spec (c : CandidateProfile) (job : Job)
    (hexp : 0 ≤ c.experience_years) :
    0 ≤ calculate_job_fit c job ∧ calculate_job_fit c job ≤ 100 ∧
    calculate_job_fit c job = skillRatioOf c job * 60 + expRatioOf c job * 40 ∧
    ((c.skills.toFinset ∩ (job.required_skills.getD []).toFinset).card = 0 ∧
        c.experience_years = 0 →
      calculate_job_fit c job = 0) := by
  have hdnat : (0 : ℕ) < max 1 (job.required_skills.getD []).length :=
    lt_of_lt_of_le Nat.one_pos (le_max_left _ _)
  have hdpos : (0 : ℚ) < ((max 1 (job.required_skills.getD []).length : ℕ) : ℚ) := by
    exact_mod_cast hdnat
  have hs0 : 0 ≤ skillRatioOf c job := by
    unfold skillRatioOf
    positivity
  have hs1 : skillRatioOf c job ≤ 1 := by
    unfold skillRatioOf
    refine (div_le_one hdpos).mpr ?_
    have hcard : (c.skills.toFinset ∩ (job.required_skills.getD []).toFinset).card
        ≤ max 1 (job.required_skills.getD []).length :=
      le_trans (le_trans (Finset.card_le_card Finset.inter_subset_right)
        (List.toFinset_card_le _)) (le_max_right _ _)
    exact_mod_cast hcard
  have hepos : (0 : ℚ) < max 1 (job.years_experience_required.getD 1) :=
    lt_of_lt_of_le zero_lt_one (le_max_left _ _)
  have he0 : 0 ≤ expRatioOf c job :=
    le_min zero_le_one (div_nonneg hexp hepos.le)
  have he1 : expRatioOf c job ≤ 1 := min_le_left _ _
  refine ⟨?_, ?_, rfl, ?_⟩
  · have h1 := mul_nonneg hs0 (by norm_num : (0:ℚ) ≤ 60)
    have h2 := mul_nonneg he0 (by norm_num : (0:ℚ) ≤ 40)
    unfold calculate_job_fit
    linarith
  · have h1 : skillRatioOf c job * 60 ≤ 1 * 60 :=
      mul_le_mul_of_nonneg_right hs1 (by norm_num)
    have h2 : expRatioOf c job * 40 ≤ 1 * 40 :=
      mul_le_mul_of_nonneg_right he1 (by norm_num)
    unfold calculate_job_fit
    linarith
  · rintro ⟨hcard, he⟩
    unfold calculate_job_fit skillRatioOf expRatioOf
    rw [hcard, he]
    norm_num

theorem C4_job_fit_spec_witness :
    0 ≤ calculate_job_fit sample_profile
        { id := "job_003", title := "Backend Developer", company := "WebServices Ltd",
          required_skills := some ["Java", "API", "Docker"],
          years_experience_required := some 4 } :=
  (C4_job_fit_spec _ _ (by norm_num [sample_profile, profileOf, sample_candidate])).1

theorem job_fit_no_required_le (c : CandidateProfile) (job : Job)
    (h : job.required_skills = none) : calculate_job_fit c job ≤ 40 := by
  have he1 : expRatioOf c job ≤ 1 := min_le_left _ _
  have h40 : expRatioOf c job * 40 ≤ 1 * 40 :=
    mul_le_mul_of_nonneg_right he1 (by norm_num)
  have hskill : skillRatioOf c job = 0 := by
    unfold skillRatioOf
    rw [h]
    norm_num
  unfold calculate_job_fit
  rw [hskill]
  linarith

theorem matchesOf_isSome (c : CandidateProfile) (db : List Job) :
    ∃ ms, matchesOf c db = some ms := by
  induction db with
  | nil => exact ⟨[], rfl⟩
  | cons job rest ih =>
    obtain ⟨ms, hms⟩ := ih
    by_cases h50 : 50 < calculate_job_fit c job
    · cases hreq : job.required_skills with
      | none =>
        exact absurd h50 (not_lt.mpr (le_trans (job_fit_no_required_le c job hreq)
          (by norm_num)))
      | some req =>
        exact ⟨mkJobMatch c job req :: ms, by
          simp only [matchesOf, if_pos h50, hreq, hms]
          rfl⟩
    · exact ⟨ms, by simp only [matchesOf, if_neg h50, hms]⟩

theorem match_jobs_isSome (st : Mem) (c : CandidateProfile) (db : List Job) :
    ∃ res st2, match_jobs st c db = some (res, st2) := by
  obtain ⟨ms, hms⟩ := matchesOf_isSome c db
  exact ⟨_, _, by rw [match_jobs, hms]; rfl⟩

/-- C10: a job record without a `required_skills` key always scores at
most 40, so the strict `> 50` filter in `match_jobs` excludes it, the
unguarded `job["required_skills"]` lookup in the match-building branch
is never executed, and `match_jobs` never fails on a missing
`required_skills` key. -/
theorem C10_missing_required_skills_safe :
    (∀ (c : CandidateProfile) (job : Job), job.required_skills = none →
      calculate_job_fit c job ≤ 40 ∧ ¬ 50 < calculate_job_fit c job) ∧
    (∀ (st : Mem) (c : CandidateProfile) (db : List Job),
      ∃ res st2, match_jobs st c db = some (res, st2)) := by
  refine ⟨fun c job h => ?_, match_jobs_isSome⟩
  have h40 := job_fit_no_required_le c job h
  exact ⟨h40, not_lt.mpr (le_trans h40 (by norm_num))⟩

theorem C10_missing_required_skills_safe_witness :
    (calculate_job_fit sample_profile
        { id := "job_x", title := "Mystery Role", company := "NoCorp",
          required_skills := none, years_experience_required := some 3 } ≤ 40) ∧
    ∃ res st2, match_jobs [] sample_profile sample_jobs = some (res, st2) :=
  ⟨(C10_missing_required_skills_safe.1 sample_profile _ rfl).1,
   C10_missing_required_skills_safe.2 [] sample_profile sample_jobs⟩

theorem insertionSort_filter_stable (l : List JobMatch) (p : JobMatch → Bool)
    (hp : ∀ a ∈ l, ∀ b ∈ l, p a = true → p b = true → matchGE a b) :
    (l.insertionSort matchGE).filter p = l.filter p := by
  have hpair : (l.filter p).Pairwise matchGE := by
    rw [List.pairwise_iff_forall_sublist]
    intro a b hab
    have ha : a ∈ l.filter p := hab.subset (List.mem_cons_self a [b])
    have hb : b ∈ l.filter p := hab.subset (List.mem_cons_of_mem a (List.mem_cons_self b []))
    exact hp a (List.mem_filter.mp ha).1 b (List.mem_filter.mp hb).1
      (List.mem_filter.mp ha).2 (List.mem_filter.mp hb).2
  have hsub : List.Sublist (l.filter p) (l.insertionSort matchGE) :=
    List.sublist_insertionSort hpair (List.filter_sublist l)
  have hfp : (l.filter p).filter p = l.filter p :=
    List.filter_eq_self.mpr (fun a ha => (List.mem_filter.mp ha).2)
  have hsub2 : List.Sublist (l.filter p) ((l.insertionSort matchGE).filter p) :=
    hfp ▸ List.Sublist.filter p hsub
  have hlen : ((l.insertionSort matchGE).filter p).length = (l.filter p).length :=
    (List.Perm.filter p (List.perm_insertionSort matchGE l)).length_eq
  exact (hsub2.eq_of_length hlen.symm).symm

theorem matchesOf_score (c : CandidateProfile) (db : List Job) (ms : List JobMatch)
    (h : matchesOf c db = some ms) : ∀ m ∈ ms, 50 < m.match_score := by
  induction db generalizing ms with
  | nil =>
    simp only [matchesOf, Option.some.injEq] at h
    subst h
    intro m hm
    exact absurd hm (List.not_mem_nil m)
  | cons job rest ih =>
    by_cases h50 : 50 < calculate_job_fit c job
    · cases hreq : job.required_skills with
      | none =>
        rw [matchesOf, if_pos h50, hreq] at h
        exact absurd h (by simp)
      | some req =>
        rw [matchesOf, if_pos h50, hreq] at h
        cases hrec : matchesOf c rest with
        | none => rw [hrec] at h; exact absurd h (by simp)
        | some ms2 =>
          rw [hrec] at h
          have h2 : mkJobMatch c job req :: ms2 = ms := Option.some.inj h
          subst h2
          intro m hm
          rcases List.mem_cons.mp hm with hm | hm
          · rw [hm]
            exact h50
          · exact ih ms2 hrec m hm
    · rw [matchesOf, if_neg h50] at h
      exact ih ms h

theorem match_jobs_eq (st : Mem) (c : CandidateProfile) (db : List Job)
    (ms : List JobMatch) (h : matchesOf c db = some ms) :
    match_jobs st c db = some
      (matchingResultOf c ms,
       save_to_memory st "matching_result" (MemVal.matching (matchingResultOf c ms))) := by
  rw [match_jobs, h]
  rfl

/-- C5: the top-matches list has length at most 3, is sorted
non-increasingly by match score, contains only matches scoring strictly
above 50, and is the 3-element prefix of a stable descending sort of
the filtered match list: a permutation of it that, on every score
class, preserves the original job-list order. -/
theorem C5_top_matches_invariant (st : Mem) (c : CandidateProfile) (db : List Job)
    (res : MatchingResult) (st2 : Mem)
    (h : match_jobs st c db = some (res, st2)) :
    res.top_matches.length ≤ 3 ∧
    res.top_matches.Pairwise matchGE ∧
    (∀ m ∈ res.top_matches, 50 < m.match_score) ∧
    ∃ ms, matchesOf c db = some ms ∧
      res.top_matches = (ms.insertionSort matchGE).take 3 ∧
      (ms.insertionSort matchGE).Perm ms ∧
      (∀ m ∈ ms, 50 < m.match_score) ∧
      ∀ v : ℚ,
        (ms.insertionSort matchGE).filter (fun m => decide (m.match_score = v)) =
          ms.filter (fun m => decide (m.match_score = v)) := by
  obtain ⟨ms, hms⟩ := matchesOf_isSome c db
  rw [match_jobs_eq st c db ms hms] at h
  have hp := Option.some.inj h
  rw [Prod.mk.injEq] at hp
  obtain ⟨hres, hst⟩ := hp
  subst hres
  refine ⟨?_, ?_, ?_, ms, hms, rfl, List.perm_insertionSort matchGE ms,
    matchesOf_score c db ms hms, ?_⟩
  · show ((ms.insertionSort matchGE).take 3).length ≤ 3
    rw [List.length_take]
    exact min_le_left _ _
  · exact List.Pairwise.sublist (List.take_sublist 3 _)
      (List.sorted_insertionSort matchGE ms)
  · intro m hm
    have h1 : m ∈ ms.insertionSort matchGE := (List.take_sublist 3 _).subset hm
    have h2 : m ∈ ms := (List.perm_insertionSort matchGE ms).subset h1
    exact matchesOf_score c db ms hms m h2
  · intro v
    refine insertionSort_filter_stable ms _ (fun a _ b _ hpa hpb => ?_)
    have ha : a.match_score = v := of_decide_eq_true hpa
    have hb : b.match_score = v := of_decide_eq_true hpb
    exact le_of_eq (hb.trans ha.symm)

theorem C5_top_matches_invariant_witness :
    match_jobs [] sample_profile sample_jobs =
      some (sample_matching_result, sample_matching_mem) ∧
    sample_matching_result.top_matches.length ≤ 3 :=
  have h : match_jobs [] sample_profile sample_jobs =
      some (sample_matching_result, sample_matching_mem) := by
    with_unfolding_all rfl
  ⟨h, (C5_top_matches_invariant [] sample_profile sample_jobs
        sample_matching_result sample_matching_mem h).1⟩

/-- C1: the workflow halts at screening with the
`{status: REJECTED, stage: "screening", result}` dict — writing nothing
but the screening result to memory and producing no matching or
interview output — if and only if the screening recommendation is
REJECT; otherwise it proceeds to matching and returns a completed
result. -/
theorem C1_screening_halt_iff_reject (st : Mem) (cd : CandidateData)
    (jd : String) (db : List Job) :
    ((screen_candidate st cd.resume jd).1.recommendation = "REJECT" →
      full_workflow st cd jd db =
        some (WorkflowOutput.rejected "REJECTED" "screening"
            (screen_candidate st cd.resume jd).1,
          save_to_memory st "screening_result"
            (MemVal.screening (screen_candidate st cd.resume jd).1))) ∧
    ((screen_candidate st cd.resume jd).1.recommendation ≠ "REJECT" →
      ∃ matching st2 res st3,
        match_jobs (screen_candidate st cd.resume jd).2 (profileOf cd) db =
          some (matching, st2) ∧
        full_workflow st cd jd db = some (WorkflowOutput.completed res, st3) ∧
        res.screening = (screen_candidate st cd.resume jd).1 ∧
        res.matching = matching ∧
        res.overall_status = "COMPLETED") ∧
    (∀ status stage r mem,
      full_workflow st cd jd db =
          some (WorkflowOutput.rejected status stage r, mem) →
      (screen_candidate st cd.resume jd).1.recommendation = "REJECT") := by
  have ha : (screen_candidate st cd.resume jd).1.recommendation = "REJECT" →
      full_workflow st cd jd db =
        some (WorkflowOutput.rejected "REJECTED" "screening"
            (screen_candidate st cd.resume jd).1,
          save_to_memory st "screening_result"
            (MemVal.screening (screen_candidate st cd.resume jd).1)) := by
    intro hrec
    simp only [full_workflow]
    rw [if_pos hrec]
    rfl
  have hb : (screen_candidate st cd.resume jd).1.recommendation ≠ "REJECT" →
      ∃ matching st2 res st3,
        match_jobs (screen_candidate st cd.resume jd).2 (profileOf cd) db =
          some (matching, st2) ∧
        full_workflow st cd jd db = some (WorkflowOutput.completed res, st3) ∧
        res.screening = (screen_candidate st cd.resume jd).1 ∧
        res.matching = matching ∧
        res.overall_status = "COMPLETED" := by
    intro hrec
    obtain ⟨ms, hms⟩ := matchesOf_isSome (profileOf cd) db
    have hmj := match_jobs_eq (screen_candidate st cd.resume jd).2 (profileOf cd) db ms hms
    cases htop : (matchingResultOf (profileOf cd) ms).top_matches with
    | nil =>
      refine ⟨matchingResultOf (profileOf cd) ms,
        save_to_memory (screen_candidate st cd.resume jd).2 "matching_result"
          (MemVal.matching (matchingResultOf (profileOf cd) ms)),
        completedResultOf cd (screen_candidate st cd.resume jd).1
          (matchingResultOf (profileOf cd) ms) InterviewOutcome.noMatches,
        save_to_memory (screen_candidate st cd.resume jd).2 "matching_result"
          (MemVal.matching (matchingResultOf (profileOf cd) ms)),
        hmj, ?_, rfl, rfl, rfl⟩
      simp only [full_workflow]
      rw [if_neg hrec, hmj]
      simp only [htop]
    | cons best rest =>
      refine ⟨matchingResultOf (profileOf cd) ms,
        save_to_memory (screen_candidate st cd.resume jd).2 "matching_result"
          (MemVal.matching (matchingResultOf (profileOf cd) ms)),
        completedResultOf cd (screen_candidate st cd.resume jd).1
          (matchingResultOf (profileOf cd) ms)
          (InterviewOutcome.plan
            (generate_interview
              (save_to_memory (screen_candidate st cd.resume jd).2 "matching_result"
                (MemVal.matching (matchingResultOf (profileOf cd) ms)))
              best.title (profileOf cd).skills).1),
        (generate_interview
          (save_to_memory (screen_candidate st cd.resume jd).2 "matching_result"
            (MemVal.matching (matchingResultOf (profileOf cd) ms)))
          best.title (profileOf cd).skills).2,
        hmj, ?_, rfl, rfl, rfl⟩
      simp only [full_workflow]
      rw [if_neg hrec, hmj]
      simp only [htop]
  refine ⟨ha, hb, ?_⟩
  intro status stage r mem hfull
  by_cases hrec : (screen_candidate st cd.resume jd).1.recommendation = "REJECT"
  · exact hrec
  · exfalso
    obtain ⟨m, st2, res, st3, _, hfull2, _⟩ := hb hrec
    rw [hfull] at hfull2
    simp at hfull2

theorem C1_screening_halt_iff_reject_witness :
    (full_workflow [] reject_candidate sample_job_description sample_jobs =
      some (WorkflowOutput.rejected "REJECTED" "screening"
          (screen_candidate [] reject_candidate.resume sample_job_description).1,
        save_to_memory [] "screening_result"
          (MemVal.screening
            (screen_candidate [] reject_candidate.resume sample_job_description).1))) ∧
    ∃ matching st2 res st3,
      match_jobs (screen_candidate [] sample_candidate.resume sample_job_description).2
          (profileOf sample_candidate) sample_jobs = some (matching, st2) ∧
      full_workflow [] sample_candidate sample_job_description sample_jobs =
        some (WorkflowOutput.completed res, st3) ∧
      res.screening = (screen_candidate [] sample_candidate.resume sample_job_description).1 ∧
      res.matching = matching ∧
      res.overall_status = "COMPLETED" :=
  ⟨(C1_screening_halt_iff_reject [] reject_candidate sample_job_description sample_jobs).1
      (by with_unfolding_all decide),
   (C1_screening_halt_iff_reject [] sample_candidate sample_job_description sample_jobs).2.1
      (by with_unfolding_all decide)⟩

/-- C6: in every workflow run that reaches the interview stage, if at
least one job match exists the interview result has exactly 5
questions, each tagged with a category, parameterized by the top
match's title and the candidate's first listed skill (falling back to
"software development" when the candidate has no skills); if no
matches exist the workflow substitutes the `NO_MATCHES` sentinel and
still completes. -/
theorem C6_interview_stage (st : Mem) (cd : CandidateData) (jd : String)
    (db : List Job) (res : WorkflowResult) (st3 : Mem)
    (h : full_workflow st cd jd db = some (WorkflowOutput.completed res, st3)) :
    (res.matching.top_matches = [] → res.interview = InterviewOutcome.noMatches) ∧
    (∀ best rest, res.matching.top_matches = best :: rest →
      ∃ iv, res.interview = InterviewOutcome.plan iv ∧
        iv.questions.length = 5 ∧
        iv.total_questions = 5 ∧
        iv.role = best.title ∧
        (∀ q ∈ iv.questions, q.category = "Technical" ∨ q.category = "Behavioral" ∨
          q.category = "Role-Specific") ∧
        (iv.questions.map Question.question).head? =
          some ("Describe your experience with " ++
            firstSkillOf (profileOf cd).skills ++ "?") ∧
        ((profileOf cd).skills = [] →
          firstSkillOf (profileOf cd).skills = "software development") ∧
        (∀ s rest2, (profileOf cd).skills = s :: rest2 →
          firstSkillOf (profileOf cd).skills = s)) := by
  by_cases hrec : (screen_candidate st cd.resume jd).1.recommendation = "REJECT"
  · simp only [full_workflow] at h
    rw [if_pos hrec] at h
    simp at h
  · obtain ⟨ms, hms⟩ := matchesOf_isSome (profileOf cd) db
    have hmj := match_jobs_eq (screen_candidate st cd.resume jd).2 (profileOf cd) db ms hms
    simp only [full_workflow] at h
    rw [if_neg hrec, hmj] at h
    cases htop : (matchingResultOf (profileOf cd) ms).top_matches with
    | nil =>
      simp only [htop] at h
      have hp := Option.some.inj h
      rw [Prod.mk.injEq] at hp
      obtain ⟨hres, hst⟩ := hp
      have hres2 : res = completedResultOf cd (screen_candidate st cd.resume jd).1
          (matchingResultOf (profileOf cd) ms) InterviewOutcome.noMatches := by
        cases hres
        rfl
      subst hres2
      refine ⟨fun _ => rfl, fun best rest htop2 => ?_⟩
      exact absurd (htop.symm.trans htop2) (by simp)
    | cons best rest =>
      simp only [htop] at h
      have hp := Option.some.inj h
      rw [Prod.mk.injEq] at hp
      obtain ⟨hres, hst⟩ := hp
      have hres2 : res = completedResultOf cd (screen_candidate st cd.resume jd).1
          (matchingResultOf (profileOf cd) ms)
          (InterviewOutcome.plan
            (generate_interview
              (save_to_memory (screen_candidate st cd.resume jd).2 "matching_result"
                (MemVal.matching (matchingResultOf (profileOf cd) ms)))
              best.title (profileOf cd).skills).1) := by
        cases hres
        rfl
      subst hres2
      refine ⟨fun h0 => absurd (htop.symm.trans h0) (by simp),
        fun best2 rest2 htop2 => ?_⟩
      have hcons := htop.symm.trans htop2
      rw [List.cons.injEq] at hcons
      obtain ⟨hbest, hrest⟩ := hcons
      subst hbest
      refine ⟨_, rfl, rfl, rfl, rfl, ?_, rfl, fun h0 => by rw [h0, firstSkillOf],
        fun s rest3 h0 => by rw [h0, firstSkillOf]⟩
      intro q hq
      simp only [generate_interview, List.mem_cons] at hq
      rcases hq with rfl | rfl | rfl | rfl | rfl | hq
      · exact Or.inl rfl
      · exact Or.inl rfl
      · exact Or.inr (Or.inl rfl)
      · exact Or.inr (Or.inl rfl)
      · exact Or.inr (Or.inr rfl)
      · exact absurd hq (List.not_mem_nil q)

theorem C6_interview_stage_witness :
    ∃ iv, sample_workflow_result.interview = InterviewOutcome.plan iv ∧
      iv.questions.length = 5 ∧
      iv.total_questions = 5 ∧
      iv.role = sample_best_match.title ∧
      (∀ q ∈ iv.questions, q.category = "Technical" ∨ q.category = "Behavioral" ∨
        q.category = "Role-Specific") ∧
      (iv.questions.map Question.question).head? =
        some ("Describe your experience with " ++
          firstSkillOf (profileOf sample_candidate).skills ++ "?") ∧
      ((profileOf sample_candidate).skills = [] →
        firstSkillOf (profileOf sample_candidate).skills = "software development") ∧
      (∀ s rest2, (profileOf sample_candidate).skills = s :: rest2 →
        firstSkillOf (profileOf sample_candidate).skills = s) :=
  (C6_interview_stage [] sample_candidate sample_job_description sample_jobs
      sample_workflow_result sample_final_mem (by with_unfolding_all rfl)).2
    sample_best_match sample_rest_matches (by with_unfolding_all rfl)

theorem save_to_memory_overwrite (st : Mem) (k : String) (v w : MemVal) :
    save_to_memory (save_to_memory st k v) k w = save_to_memory st k w := by
  induction st with
  | nil => simp [save_to_memory]
  | cons kv rest ih =>
    obtain ⟨k2, v2⟩ := kv
    by_cases hk : k2 = k
    · simp [save_to_memory, hk]
    · simp [save_to_memory, hk, ih]

/-- C7: every stage writes exactly its own result object under its own
stage key, the object stored is the object returned, a workflow run
from an empty session leaves memory holding exactly the stage keys of
the stages that ran (in insertion order), and re-saving a key
overwrites it in place with no history. -/
theorem C7_memory_discipline :
    (∀ st rt jd, (screen_candidate st rt jd).2 =
      save_to_memory st "screening_result"
        (MemVal.screening (screen_candidate st rt jd).1)) ∧
    (∀ st c db res st2, match_jobs st c db = some (res, st2) →
      st2 = save_to_memory st "matching_result" (MemVal.matching res)) ∧
    (∀ st role skills, (generate_interview st role skills).2 =
      save_to_memory st "interview_questions"
        (MemVal.interview (generate_interview st role skills).1)) ∧
    (∀ st k v w, save_to_memory (save_to_memory st k v) k w = save_to_memory st k w) ∧
    (∀ cd jd db out mem,
      full_workflow [] cd jd db = some (out, mem) →
      (∃ r, out = WorkflowOutput.rejected "REJECTED" "screening" r ∧
        mem = [("screening_result", MemVal.screening r)]) ∨
      (∃ res, out = WorkflowOutput.completed res ∧
        ((∃ iv, res.interview = InterviewOutcome.plan iv ∧
            mem = [("screening_result", MemVal.screening res.screening),
                   ("matching_result", MemVal.matching res.matching),
                   ("interview_questions", MemVal.interview iv)]) ∨
          (res.interview = InterviewOutcome.noMatches ∧
            mem = [("screening_result", MemVal.screening res.screening),
                   ("matching_result", MemVal.matching res.matching)])))) := by
  refine ⟨fun st rt jd => rfl, ?_, fun st role skills => rfl,
    save_to_memory_overwrite, ?_⟩
  · intro st c db res st2 h
    obtain ⟨ms, hms⟩ := matchesOf_isSome c db
    rw [match_jobs_eq st c db ms hms] at h
    have hp := Option.some.inj h
    rw [Prod.mk.injEq] at hp
    obtain ⟨h1, h2⟩ := hp
    cases h1
    exact h2.symm
  · intro cd jd db out mem h
    by_cases hrec : (screen_candidate [] cd.resume jd).1.recommendation = "REJECT"
    · simp only [full_workflow] at h
      rw [if_pos hrec] at h
      have hp := Option.some.inj h
      rw [Prod.mk.injEq] at hp
      obtain ⟨ho, hm⟩ := hp
      subst ho
      subst hm
      exact Or.inl ⟨(screen_candidate [] cd.resume jd).1, rfl, rfl⟩
    · obtain ⟨ms, hms⟩ := matchesOf_isSome (profileOf cd) db
      have hmj := match_jobs_eq (screen_candidate [] cd.resume jd).2 (profileOf cd) db ms hms
      simp only [full_workflow] at h
      rw [if_neg hrec, hmj] at h
      cases htop : (matchingResultOf (profileOf cd) ms).top_matches with
      | nil =>
        simp only [htop] at h
        have hp := Option.some.inj h
        rw [Prod.mk.injEq] at hp
        obtain ⟨ho, hm⟩ := hp
        subst ho
        subst hm
        exact Or.inr ⟨_, rfl, Or.inr ⟨rfl, rfl⟩⟩
      | cons best rest =>
        simp only [htop] at h
        have hp := Option.some.inj h
        rw [Prod.mk.injEq] at hp
        obtain ⟨ho, hm⟩ := hp
        subst ho
        subst hm
        exact Or.inr ⟨_, rfl, Or.inl ⟨_, rfl, rfl⟩⟩

theorem C7_memory_discipline_witness :
    sample_matching_mem =
      save_to_memory [] "matching_result" (MemVal.matching sample_matching_result) :=
  C7_memory_discipline.2.1 [] sample_profile sample_jobs
    sample_matching_result sample_matching_mem (by with_unfolding_all rfl)

/-- C9 counterexample: the sample resume also mentions Docker, so the
resume-side extracted skills are not the 5-element set
`{Python, Machine Learning, Cloud, SQL, API}` the claim states: they
additionally contain "Docker". -/
theorem C9_sample_counterexample :
    "Docker" ∈ (screen_candidate [] sample_candidate.resume
        sample_job_description).1.resume_skills ∧
    "Docker" ∉ (["Python", "Machine Learning", "Cloud", "SQL", "API"] : List String) := by
  with_unfolding_all decide

/-- C9 (amended): on the sample resume and job description, screening
extracts `[Python, Machine Learning, Cloud, SQL, API, Docker]` on the
resume side and `[Python, Machine Learning, Cloud, SQL, API]` on the
job-description side, the match score is 100, and the recommendation
is PASS. -/
theorem C9_sample_screening_amended :
    (screen_candidate [] sample_candidate.resume sample_job_description).1 =
      sample_screening_result := by
  with_unfolding_all rfl

end Recruitment
